import Mathlib

/-
Verification development for the LocalStore class of
src/src/modules/local-store/repository/local-store.ts, a filesystem-backed
document store with per-collection indexes.

Modelling conventions (shallow embedding, single collection, default
configuration storageType = "json"):

* The collection directory is modelled by a Store record holding
  - dirExists : whether the collection directory exists,
  - files     : the directory contents, an association list keyed by the
                pair (basename, extension); path.join(baseDir, c, name) is
                rendered as the pair so that the real filename collision
                between the index file index.json and a structured record
                whose id is the string "index" is preserved by the model,
  - cache     : the indexCache entry for this collection (a Map in the
                source; one collection, hence an Option).
* Structured file content is kept at the value level: writing stores the
  document and reading returns it, encoding the codec identity
  JSON.parse (JSON.stringify v) = v, which holds for exactly the
  JSON-representable values that the JsVal type comprises.
* fs.writeFile / fs.readFile / fs.unlink on the modelled directory do not
  fail except for the "file absent" outcomes the source handles (ENOENT).
  The two fallible steps of updateIndex (serialization of the new index
  and the index file write) are failure-injected through two Bool
  parameters serOk and writeOk threaded from each mutating operation,
  because the source installs cache-eviction handlers exactly there.
* randomUUID() is modelled by passing the generated id as an explicit
  argument; freshness of that id is a hypothesis where a theorem needs it.
* The per-collection mutex serializes mutating operations; the embedding
  is sequential state passing, which is the behaviour of any interleaving
  the mutex admits for a single collection.
-/

namespace LocalStoreModel

/-- JSON-representable values (nested content of structured documents). -/
inductive JsVal where
  | null : JsVal
  | bool (b : Bool) : JsVal
  | num (n : Int) : JsVal
  | str (s : String) : JsVal
  | arr (xs : List JsVal) : JsVal
  | obj (fs : List (String × JsVal)) : JsVal
deriving Repr

/-- Payload of a store operation: a structured document (an open key/value
mapping, as in the spec data model) or a Buffer of raw bytes. -/
inductive Payload where
  | doc (fs : List (String × JsVal)) : Payload
  | buf (bs : List Nat) : Payload
deriving Repr

/-- Buffer.isBuffer, the check writeRecord branches on. -/
def Payload.isBuffer : Payload → Bool
  | .doc _ => false
  | .buf _ => true

/-- One entry of a collection index: interface IndexRecord of the source. -/
structure IndexRecord where
  id : String
  isBinary : Bool
deriving Repr, DecidableEq

/-- Content of one file in the collection directory. -/
inductive FileData where
  | text (fs : List (String × JsVal)) : FileData
  | binf (bs : List Nat) : FileData
  | indexData (es : List IndexRecord) : FileData
deriving Repr

/-- Error kinds the source raises (its Error objects, distinguished by
origin). -/
inductive Err where
  | validation : Err
  | notFound : Err
  | eexist : Err
  | serialization : Err
  | ioWrite : Err
  | typeError : Err
deriving Repr, DecidableEq

/-- File key: (basename, extension), rendering basename.extension. -/
abbrev FKey := String × String

/-- Directory contents: association list from file key to content. -/
abbrev Files := List (FKey × FileData)

/-- fs.readFile on the modelled directory: none is ENOENT. -/
def fsLookup : Files → FKey → Option FileData
  | [], _ => none
  | (k', fd) :: rest, k => if k' = k then some fd else fsLookup rest k

/-- fs.writeFile: create the file or replace its content. -/
def fsWrite : Files → FKey → FileData → Files
  | [], k, fd => [(k, fd)]
  | (k', fd') :: rest, k, fd =>
      if k' = k then (k, fd) :: rest else (k', fd') :: fsWrite rest k fd

/-- fs.unlink with the ENOENT catch of the source: remove if present. -/
def fsUnlink : Files → FKey → Files
  | [], _ => []
  | (k', fd') :: rest, k =>
      if k' = k then fsUnlink rest k else (k', fd') :: fsUnlink rest k

/-- State of one collection of the store. -/
structure Store where
  dirExists : Bool
  files : Files
  cache : Option (List IndexRecord)
deriving Repr

/-- Key of the index file: index.json (getIndexFilePath with the default
json storage type). -/
def indexKey : FKey := ("index", "json")

/-- Key of the file of a record: getRecordFilePath, id.bin when binary,
id.json otherwise. -/
def recKey (id : String) (isBin : Bool) : FKey :=
  if isBin then (id, "bin") else (id, "json")

theorem fsLookup_write_same (fs : Files) (k : FKey) (fd : FileData) :
    fsLookup (fsWrite fs k fd) k = some fd := by
  induction fs with
  | nil => simp [fsWrite, fsLookup]
  | cons hd tl ih =>
      by_cases h : hd.1 = k <;> simp [fsWrite, fsLookup, h, ih]

theorem fsLookup_write_other (fs : Files) (k k' : FKey) (fd : FileData)
    (h : k' ≠ k) : fsLookup (fsWrite fs k fd) k' = fsLookup fs k' := by
  induction fs with
  | nil => simp [fsWrite, fsLookup, Ne.symm h]
  | cons hd tl ih =>
      by_cases hh : hd.1 = k
      · simp [fsWrite, fsLookup, hh, Ne.symm h]
      · by_cases hk' : hd.1 = k' <;> simp [fsWrite, fsLookup, hh, hk', h, ih]

theorem fsLookup_unlink_same (fs : Files) (k : FKey) :
    fsLookup (fsUnlink fs k) k = none := by
  induction fs with
  | nil => simp [fsUnlink, fsLookup]
  | cons hd tl ih =>
      by_cases h : hd.1 = k <;> simp [fsUnlink, fsLookup, h, ih]

theorem fsLookup_unlink_other (fs : Files) (k k' : FKey) (h : k' ≠ k) :
    fsLookup (fsUnlink fs k) k' = fsLookup fs k' := by
  induction fs with
  | nil => simp [fsUnlink, fsLookup]
  | cons hd tl ih =>
      by_cases hh : hd.1 = k
      · simp [fsUnlink, fsLookup, hh, Ne.symm h, ih]
      · by_cases hk' : hd.1 = k' <;> simp [fsUnlink, fsLookup, hh, hk', h, ih]

/-- getIndex: return the cached index if present; otherwise read the index
file (ENOENT gives the empty index), cache it and return it. The
fall-through case (the index file holding record content) can only arise
after a record with id "index" clobbered it; the source would hand the
parsed non-array downstream where it crashes with a TypeError. -/
def getIndex (s : Store) : Except Err (List IndexRecord × Store) :=
  match s.cache with
  | some idx => .ok (idx, s)
  | none =>
      match fsLookup s.files indexKey with
      | none => .ok ([], { s with cache := some [] })
      | some (.indexData es) => .ok (es, { s with cache := some es })
      | some _ => .error .typeError

/-- updateIndex: set the cache entry, serialize the new index, write the
index file; on a serialization or write failure evict the cache entry and
propagate the error. serOk and writeOk inject the two failures. -/
def updateIndex (s : Store) (newIndex : List IndexRecord)
    (serOk writeOk : Bool) : Store × Option Err :=
  let s1 := { s with cache := some newIndex }
  if !serOk then ({ s1 with cache := none }, some .serialization)
  else if !writeOk then ({ s1 with cache := none }, some .ioWrite)
  else ({ s1 with files := fsWrite s1.files indexKey (.indexData newIndex) },
        none)

/-- ensureDirExists: fs.mkdir without the recursive option, every error
rethrown — creating an already existing directory fails with EEXIST. -/
def ensureDirExists (s : Store) : Store × Option Err :=
  if s.dirExists then (s, some .eexist)
  else ({ s with dirExists := true }, none)

/-- createCollection: make the collection directory, then write an empty
index through updateIndex. -/
def createCollection (s : Store) (serOk writeOk : Bool) : Store × Option Err :=
  match ensureDirExists s with
  | (s1, some e) => (s1, some e)
  | (s1, none) => updateIndex s1 [] serOk writeOk

/-- deleteCollection: remove the directory tree (force, so absence is not
an error), drop the mutex and the cache entry. -/
def deleteCollection (_s : Store) : Store × Option Err :=
  ({ dirExists := false, files := [], cache := none }, none)

/-- writeRecord: binary mode demands a Buffer and writes the raw bytes to
id.bin; structured mode rejects a Buffer and writes the serialized
document to id.json. The mismatch errors are raised before any write. -/
def writeRecord (s : Store) (id : String) (data : Payload) (isBin : Bool) :
    Store × Option Err :=
  if isBin then
    match data with
    | .buf bs =>
        ({ s with files := fsWrite s.files (recKey id true) (.binf bs) }, none)
    | .doc _ => (s, some .validation)
  else
    match data with
    | .buf _ => (s, some .validation)
    | .doc fs =>
        ({ s with files := fsWrite s.files (recKey id false) (.text fs) }, none)

/-- readRecord: read the file the flag selects; ENOENT gives null. The
fall-through cases (a .bin key holding structured content, or a .json key
holding raw bytes or the index array) cannot arise from the writes of the
store itself except through the id = "index" filename collision, which the
theorems below exclude by hypothesis; they are modelled as decode
failures. -/
def readRecord (s : Store) (id : String) (isBin : Bool) :
    Except Err (Option Payload) :=
  match fsLookup s.files (recKey id isBin), isBin with
  | none, _ => .ok none
  | some (.binf bs), true => .ok (some (.buf bs))
  | some (.text fs), false => .ok (some (.doc fs))
  | some _, _ => .error .serialization

/-- insertRecord: under the collection mutex, load the index, generate a
fresh id (randomUUID, passed here as the recordId argument), write the
record file, push the new entry and persist the index. -/
def insertRecord (s : Store) (recordId : String) (record : Payload)
    (isBin : Bool) (serOk writeOk : Bool) : Store × Except Err String :=
  match getIndex s with
  | .error e => (s, .error e)
  | .ok (index, s1) =>
      match writeRecord s1 recordId record isBin with
      | (s2, some e) => (s2, .error e)
      | (s2, none) =>
          let newIndex := index ++ [⟨recordId, isBin⟩]
          match updateIndex s2 newIndex serOk writeOk with
          | (s3, some e) => (s3, .error e)
          | (s3, none) => (s3, .ok recordId)

/-- getRecord: load the index (no lock), find the entry with the given id;
absent means null; otherwise read the file per the stored isBinary flag. -/
def getRecord (s : Store) (recordId : String) :
    Store × Except Err (Option Payload) :=
  match getIndex s with
  | .error e => (s, .error e)
  | .ok (index, s1) =>
      match index.find? (fun item => item.id == recordId) with
      | none => (s1, .ok none)
      | some entry => (s1, readRecord s1 recordId entry.isBinary)

/-- Loop body of getRecords over the selected index slice: each entry is
read, a missing file yields null which is pushed like any other result,
and a read error aborts the whole call. -/
def readPage (s : Store) : List IndexRecord → Except Err (List (Option Payload))
  | [] => .ok []
  | e :: rest =>
      match readRecord s e.id e.isBinary with
      | .error err => .error err
      | .ok p =>
          match readPage s rest with
          | .error err => .error err
          | .ok ps => .ok (p :: ps)

/-- getRecords: start is (skip or-else 0); end is index.length when limit
is absent or 0 (a falsy limit in the source), start + limit otherwise; the
loop runs i from start while i < min (index.length) end. -/
def getRecords (s : Store) (limit skip : Option Nat) :
    Store × Except Err (List (Option Payload)) :=
  match getIndex s with
  | .error e => (s, .error e)
  | .ok (index, s1) =>
      let start := skip.getD 0
      let stop :=
        match limit with
        | some l => if l = 0 then index.length else start + l
        | none => index.length
      (s1, readPage s1 ((index.take (min index.length stop)).drop start))

/-- Object.assign field merge for plain objects: keys of the target keep
their position with the source value when the source has the key; source
keys the target lacks are appended in source order. -/
def assignFields (old new : List (String × JsVal)) : List (String × JsVal) :=
  (old.map fun kv =>
    match new.find? (fun kv' => kv'.1 == kv.1) with
    | some kv' => (kv.1, kv'.2)
    | none => kv)
  ++ new.filter (fun kv' => (old.find? (fun kv => kv.1 == kv'.1)).isNone)

/-- Own enumerable properties of a Buffer: its byte indexes. -/
def bufFields (bs : List Nat) : List (String × JsVal) :=
  bs.enum.map fun p => (toString p.1, JsVal.num (Int.ofNat p.2))

/-- Object.assign of a Buffer onto a Buffer: the source bytes overwrite
the target indexes in range; out-of-range indexes are ignored, so the
target keeps its length. -/
def bufAssign (old newb : List Nat) : List Nat :=
  old.enum.map fun p => newb.getD p.1 p.2

/-- Object.assign(data, newData) as updateRecord uses it: a null target
throws a TypeError; an object target stays an object (gaining the source
fields, or a Buffer's index properties); a Buffer target stays a Buffer
(string properties do not change its bytes, Buffer bytes overwrite in
range). -/
def objectAssign : Option Payload → Payload → Except Err Payload
  | none, _ => .error .typeError
  | some (.doc old), .doc newd => .ok (.doc (assignFields old newd))
  | some (.doc old), .buf bs => .ok (.doc (assignFields old (bufFields bs)))
  | some (.buf old), .doc _ => .ok (.buf old)
  | some (.buf old), .buf newb => .ok (.buf (bufAssign old newb))

/-- Flag rewrite performed by the statement entry.isBinary = isBinary: it
mutates the found entry, i.e. the first entry with the id, in place. -/
def setFlagFirst (recordId : String) (isBin : Bool) :
    List IndexRecord → List IndexRecord
  | [] => []
  | e :: rest =>
      if e.id == recordId then { e with isBinary := isBin } :: rest
      else e :: setFlagFirst recordId isBin rest

/-- updateRecord: under the mutex, find the entry (NotFound if absent),
re-fetch the current record through getRecord, Object.assign the new data
onto it, write the merged value with the new flag, and only when the flag
changed rewrite the entry and persist the index. -/
def updateRecord (s : Store) (recordId : String) (newData : Payload)
    (isBin : Bool) (serOk writeOk : Bool) : Store × Option Err :=
  match getIndex s with
  | .error e => (s, some e)
  | .ok (index, s1) =>
      match index.find? (fun item => item.id == recordId) with
      | none => (s1, some .notFound)
      | some entry =>
          match (getRecord s1 recordId).2 with
          | .error e => (s1, some e)
          | .ok dataOpt =>
              match objectAssign dataOpt newData with
              | .error e => (s1, some e)
              | .ok merged =>
                  match writeRecord s1 recordId merged isBin with
                  | (s2, some e) => (s2, some e)
                  | (s2, none) =>
                      if entry.isBinary != isBin then
                        updateIndex s2 (setFlagFirst recordId isBin index)
                          serOk writeOk
                      else (s2, none)

/-- deleteRecord: under the mutex, find the entry (NotFound if absent),
filter every entry with the id out of the index, unlink the record file
(ENOENT tolerated) and persist the filtered index. -/
def deleteRecord (s : Store) (recordId : String) (serOk writeOk : Bool) :
    Store × Option Err :=
  match getIndex s with
  | .error e => (s, some e)
  | .ok (index, s1) =>
      match index.find? (fun item => item.id == recordId) with
      | none => (s1, some .notFound)
      | some entry =>
          let updatedIndex := index.filter (fun item => item.id != recordId)
          let s2 := { s1 with
            files := fsUnlink s1.files (recKey recordId entry.isBinary) }
          updateIndex s2 updatedIndex serOk writeOk

/-- Sequence of insertRecord calls, each with its generated id, payload and
flag; stops at the first failure, otherwise returns the ids in call
order. -/
def insertMany (s : Store) :
    List (String × Payload × Bool) → Store × Except Err (List String)
  | [] => (s, .ok [])
  | (id, p, b) :: rest =>
      match insertRecord s id p b true true with
      | (s2, .ok rid) =>
          match insertMany s2 rest with
          | (s3, .ok rids) => (s3, .ok (rid :: rids))
          | (s3, .error e) => (s3, .error e)
      | (s2, .error e) => (s2, .error e)

/-- The index value a later read would observe: first component of
getIndex. -/
def currentIndex (s : Store) : Except Err (List IndexRecord) :=
  (getIndex s).map Prod.fst

/-- A successful getIndex does not touch the files or the directory, and
leaves the returned index cached, so an immediate getIndex is stable. -/
theorem getIndex_ok (s : Store) (idx : List IndexRecord) (s1 : Store)
    (h : getIndex s = .ok (idx, s1)) :
    s1.files = s.files ∧ s1.dirExists = s.dirExists ∧
    s1.cache = some idx ∧ getIndex s1 = .ok (idx, s1) := by
  unfold getIndex at h ⊢
  match hc : s.cache with
  | some idx0 =>
      rw [hc] at h
      cases h
      simp [hc]
  | none =>
      rw [hc] at h
      match hl : fsLookup s.files indexKey with
      | none => rw [hl] at h; cases h; simp
      | some (.indexData es) => rw [hl] at h; cases h; simp
      | some (.text fs) => rw [hl] at h; cases h
      | some (.binf bs) => rw [hl] at h; cases h

/-- Sample stores used by the concrete evaluations below. Built by running
the modelled operations themselves, starting from a store whose directory
does not exist yet. -/
def emptyStore : Store := { dirExists := false, files := [], cache := none }

/-- Collection after createCollection and one structured insert of the
document with the single field name = Ann under id r1. -/
def storeAnn : Store :=
  (insertRecord (createCollection emptyStore true true).1 "r1"
    (.doc [("name", .str "Ann")]) false true true).1

/-- storeAnn after a binary insert of the bytes 1, 2, 3 under id r2. -/
def storeAnnBin : Store :=
  (insertRecord storeAnn "r2" (.buf [1, 2, 3]) true true true).1

/-- Store whose index lists an entry with id a whose record file is
missing on disk. -/
def storeMissing : Store :=
  { dirExists := true,
    files := [(indexKey, .indexData [⟨"a", false⟩])],
    cache := none }

/-- C3, failing evaluation: the first createCollection succeeds (cache
holds the empty index and an empty index file is persisted), but a second
createCollection on the now existing directory fails with EEXIST, because
ensureDirExists calls fs.mkdir without the recursive option and rethrows
every error. The claimed idempotence does not hold. -/
theorem createCollection_not_idempotent :
    (createCollection emptyStore true true).2 = none ∧
    (createCollection emptyStore true true).1.cache = some [] ∧
    fsLookup (createCollection emptyStore true true).1.files indexKey =
      some (.indexData []) ∧
    (createCollection (createCollection emptyStore true true).1 true true).2 =
      some .eexist := by
  refine ⟨rfl, rfl, rfl, rfl⟩

/-- C2, failing evaluation: updating record r1, currently the document
with field name = Ann, by the payload with the single field age = 30
succeeds, but the following getRecord returns the Object.assign merge of
the old record and the new payload, which is not the new payload. -/
theorem updateRecord_merges_not_overwrites :
    (updateRecord storeAnn "r1" (.doc [("age", .num 30)]) false true true).2 =
      none ∧
    (getRecord
      (updateRecord storeAnn "r1" (.doc [("age", .num 30)]) false true
        true).1 "r1").2 =
      .ok (some (.doc [("name", .str "Ann"), ("age", .num 30)])) ∧
    some (Payload.doc [("name", .str "Ann"), ("age", .num 30)]) ≠
      some (Payload.doc [("age", .num 30)]) := by
  refine ⟨rfl, rfl, by simp⟩

/-- C7, failing evaluation: on storeAnnBin, updating the structured record
r1 with a Buffer under isBinary = true fails with the validation error
(Object.assign leaves the old document a non-Buffer), updating the binary
record r2 with a document under isBinary = false fails likewise (the
merge target stays a Buffer), and in both cases the index entry keeps its
old flag: a representation change in place is impossible. -/
theorem updateRecord_flag_flip_always_fails :
    (updateRecord storeAnnBin "r1" (.buf [9]) true true true).2 =
      some .validation ∧
    (updateRecord storeAnnBin "r1" (.buf [9]) true true true).1.cache =
      storeAnnBin.cache ∧
    (updateRecord storeAnnBin "r2" (.doc []) false true true).2 =
      some .validation ∧
    (updateRecord storeAnnBin "r2" (.doc []) false true true).1.cache =
      storeAnnBin.cache := by
  refine ⟨rfl, rfl, rfl, rfl⟩

theorem readPage_ok (s : Store) (g : IndexRecord → Option Payload) :
    ∀ l : List IndexRecord,
      (∀ e ∈ l, readRecord s e.id e.isBinary = .ok (g e)) →
      readPage s l = .ok (l.map g) := by
  intro l
  induction l with
  | nil => intro _; rfl
  | cons e rest ih =>
      intro h
      have he := h e (by simp)
      have hrest := ih fun e' he' => h e' (by simp [he'])
      simp [readPage, he, hrest]

theorem take_min_length (l : List IndexRecord) (n : Nat) :
    l.take (min l.length n) = l.take n := by
  rcases Nat.le_total l.length n with h | h
  · rw [min_eq_left h, List.take_length, List.take_of_length_le h]
  · rw [min_eq_right h]

/-- C5, failing evaluation: on a collection with one record, a call with
limit = 0 and skip = 0 must per the claim return the empty slice
entries between positions 0 and 0, but the source treats the limit 0 as
falsy and returns every record from skip onward. -/
theorem getRecords_limit_zero_not_empty :
    (getRecords storeAnn (some 0) (some 0)).2 =
      .ok [some (.doc [("name", .str "Ann")])] ∧
    (Except.ok [some (Payload.doc [("name", .str "Ann")])] :
        Except Err (List (Option Payload))) ≠ .ok [] := by
  refine ⟨rfl, by simp⟩

/-- C5 as amended: with every listed file readable, a positive limit L
with skip S returns the slice of the index between positions S and S + L,
clipped at the index length, decoded in index order; skip at or beyond the
length yields the empty list; an omitted limit, and likewise the falsy
limit 0, return every entry from position S on; an omitted skip behaves
as skip 0. -/
theorem getRecords_pagination (s : Store) (idx : List IndexRecord)
    (s1 : Store) (g : IndexRecord → Option Payload)
    (h : getIndex s = .ok (idx, s1))
    (hr : ∀ e ∈ idx, readRecord s1 e.id e.isBinary = .ok (g e)) :
    (∀ L S, 1 ≤ L →
      (getRecords s (some L) (some S)).2 =
        .ok (((idx.take (S + L)).drop S).map g)) ∧
    (∀ L S, idx.length ≤ S →
      (getRecords s (some L) (some S)).2 = .ok []) ∧
    (∀ S, (getRecords s none (some S)).2 = .ok ((idx.drop S).map g)) ∧
    (∀ S, (getRecords s (some 0) (some S)).2 = .ok ((idx.drop S).map g)) ∧
    (∀ L, getRecords s L none = getRecords s L (some 0)) := by
  have hslice : ∀ l : List IndexRecord, l.Sublist idx →
      readPage s1 l = .ok (l.map g) := by
    intro l hsub
    exact readPage_ok s1 g l fun e he => hr e (hsub.subset he)
  have hpage : ∀ stop start, readPage s1 ((idx.take stop).drop start) =
      .ok (((idx.take stop).drop start).map g) := by
    intro stop start
    exact hslice _ (((idx.take stop).drop_sublist start).trans
      (idx.take_sublist stop))
  refine ⟨?_, ?_, ?_, ?_, ?_⟩
  · intro L S hL
    have hL0 : L ≠ 0 := Nat.one_le_iff_ne_zero.mp hL
    simp only [getRecords, h, hL0, if_false, Option.getD_some,
      take_min_length, hpage]
  · intro L S hS
    have hnil : ∀ stop, (idx.take stop).drop S = [] := by
      intro stop
      apply List.drop_eq_nil_of_le
      rw [List.length_take]
      exact le_trans (min_le_right _ _) hS
    have hnil2 : idx.drop S = [] := List.drop_eq_nil_of_le hS
    by_cases hL0 : L = 0 <;>
      simp only [getRecords, h, hL0, if_true, if_false, Option.getD_some,
        take_min_length, Nat.min_self, List.take_length, hnil, hnil2,
        readPage]
  · intro S
    have := hpage idx.length S
    simp only [getRecords, h, Option.getD_some, Nat.min_self,
      List.take_length] at this ⊢
    exact this
  · intro S
    have := hpage idx.length S
    simp only [getRecords, h, if_true, Option.getD_some, Nat.min_self,
      List.take_length] at this ⊢
    exact this
  · intro L
    simp only [getRecords, h, Option.getD_none, Option.getD_some]

/-- C6, failing evaluation: a collection whose index lists one entry with
a missing record file. The claim says the entry is omitted, so the result
would be the empty list; the source pushes the null read result, so the
call succeeds with a one-element list containing null. -/
theorem getRecords_missing_file_pushes_null :
    (getRecords storeMissing none none).2 = .ok [none] ∧
    (Except.ok [(none : Option Payload)] :
        Except Err (List (Option Payload))) ≠ .ok [] := by
  refine ⟨rfl, by simp⟩

/-- C6 as amended: index entries whose record file is missing are not
omitted; each contributes a null placeholder at its position (after a
logged warning), the call still succeeds, and no error is raised for the
missing files. -/
theorem getRecords_missing_files_null_placeholders (s : Store)
    (idx : List IndexRecord) (s1 : Store)
    (h : getIndex s = .ok (idx, s1))
    (hmiss : ∀ e ∈ idx, fsLookup s1.files (recKey e.id e.isBinary) = none) :
    (getRecords s none none).2 = .ok (idx.map fun _ => none) := by
  have hr : ∀ e ∈ idx, readRecord s1 e.id e.isBinary = .ok none := by
    intro e he
    simp [readRecord, hmiss e he]
  simp only [getRecords, h, Option.getD_none, Nat.min_self, List.take_length,
    List.drop_zero, readPage_ok s1 (fun _ => none) idx hr]

/-- File content a payload is stored as when it matches its flag. -/
def payloadFile : Payload → FileData
  | .doc fs => .text fs
  | .buf bs => .binf bs

theorem writeRecord_match (s : Store) (id : String) (p : Payload)
    (isBin : Bool) (hmatch : p.isBuffer = isBin) :
    writeRecord s id p isBin =
      ({ s with files := fsWrite s.files (recKey id isBin) (payloadFile p) },
       none) := by
  cases p <;> cases isBin <;>
    simp_all [writeRecord, payloadFile, Payload.isBuffer]

theorem insertRecord_ok (s : Store) (idx : List IndexRecord) (s1 : Store)
    (id : String) (p : Payload) (isBin : Bool)
    (h : getIndex s = .ok (idx, s1)) (hmatch : p.isBuffer = isBin) :
    insertRecord s id p isBin true true =
      ({ s1 with
          files := fsWrite (fsWrite s1.files (recKey id isBin)
            (payloadFile p)) indexKey (.indexData (idx ++ [⟨id, isBin⟩])),
          cache := some (idx ++ [⟨id, isBin⟩]) },
       .ok id) := by
  simp [insertRecord, h, writeRecord_match s1 id p isBin hmatch, updateIndex]

theorem find?_append_fresh (idx : List IndexRecord) (id : String) (b : Bool)
    (hfresh : ∀ e ∈ idx, e.id ≠ id) :
    (idx ++ [(⟨id, b⟩ : IndexRecord)]).find? (fun item => item.id == id) =
      some ⟨id, b⟩ := by
  induction idx with
  | nil => simp [List.find?]
  | cons e rest ih =>
      have he : (e.id == id) = false := by
        simp [hfresh e (by simp)]
      simp only [List.cons_append, List.find?, he]
      exact ih fun e' h' => hfresh e' (by simp [h'])

/-- C1: round trip. On any store state whose index loads successfully, for
a freshly generated id (randomUUID never repeats an existing id and never
produces the reserved basename index), inserting a structured document p
with isBinary = false and reading it back returns exactly p, and
inserting a Buffer b with isBinary = true and reading it back returns
exactly the bytes of b. -/
theorem insert_get_round_trip (s : Store) (idx : List IndexRecord)
    (s1 : Store) (id : String) (p : List (String × JsVal)) (b : List Nat)
    (h : getIndex s = .ok (idx, s1))
    (hfresh : ∀ e ∈ idx, e.id ≠ id) (hid : id ≠ "index") :
    ((insertRecord s id (.doc p) false true true).2 = .ok id ∧
      (getRecord (insertRecord s id (.doc p) false true true).1 id).2 =
        .ok (some (.doc p))) ∧
    ((insertRecord s id (.buf b) true true true).2 = .ok id ∧
      (getRecord (insertRecord s id (.buf b) true true true).1 id).2 =
        .ok (some (.buf b))) := by
  have hkeyT : recKey id false ≠ indexKey := by
    simp [recKey, indexKey, hid]
  have hkeyB : recKey id true ≠ indexKey := by
    simp [recKey, indexKey]
  constructor
  · rw [insertRecord_ok s idx s1 id (.doc p) false h rfl]
    refine ⟨rfl, ?_⟩
    simp only [getRecord, getIndex, find?_append_fresh idx id false hfresh,
      readRecord, fsLookup_write_other _ indexKey (recKey id false) _ hkeyT,
      fsLookup_write_same, payloadFile]
  · rw [insertRecord_ok s idx s1 id (.buf b) true h rfl]
    refine ⟨rfl, ?_⟩
    simp only [getRecord, getIndex, find?_append_fresh idx id true hfresh,
      readRecord, fsLookup_write_other _ indexKey (recKey id true) _ hkeyB,
      fsLookup_write_same, payloadFile]

/-- C1 witness: the round trip evaluated on a concrete fresh collection,
document and byte sequence. -/
theorem insert_get_round_trip_witness :
    ((insertRecord (createCollection emptyStore true true).1 "r1"
        (.doc [("name", .str "Ann")]) false true true).2 = .ok "r1" ∧
      (getRecord (insertRecord (createCollection emptyStore true true).1 "r1"
        (.doc [("name", .str "Ann")]) false true true).1 "r1").2 =
        .ok (some (.doc [("name", .str "Ann")]))) ∧
    ((insertRecord (createCollection emptyStore true true).1 "r1"
        (.buf [1, 2, 3]) true true true).2 = .ok "r1" ∧
      (getRecord (insertRecord (createCollection emptyStore true true).1 "r1"
        (.buf [1, 2, 3]) true true true).1 "r1").2 =
        .ok (some (.buf [1, 2, 3]))) :=
  insert_get_round_trip (createCollection emptyStore true true).1 []
    (createCollection emptyStore true true).1 "r1"
    [("name", .str "Ann")] [1, 2, 3] rfl
    (by intro e he; cases he) (by decide)

/-- C4: insertRecord fails with the validation error exactly when the
payload kind contradicts the isBinary flag (a non-Buffer under
isBinary = true, or a Buffer under isBinary = false); the error is raised
before any file write, so the store is exactly the state getIndex left,
the files are untouched, the record file still does not exist and the
index is unchanged in memory and on disk. -/
theorem insertRecord_validation (s : Store) (idx : List IndexRecord)
    (s1 : Store) (id : String) (p : Payload) (isBin : Bool)
    (serOk writeOk : Bool)
    (h : getIndex s = .ok (idx, s1))
    (hfile : fsLookup s.files (recKey id isBin) = none) :
    ((insertRecord s id p isBin serOk writeOk).2 = .error .validation ↔
      p.isBuffer ≠ isBin) ∧
    (p.isBuffer ≠ isBin →
      (insertRecord s id p isBin serOk writeOk).1 = s1 ∧
      s1.files = s.files ∧
      getIndex (insertRecord s id p isBin serOk writeOk).1 = .ok (idx, s1) ∧
      fsLookup (insertRecord s id p isBin serOk writeOk).1.files
        (recKey id isBin) = none) := by
  obtain ⟨hfiles, -, -, hstable⟩ := getIndex_ok s idx s1 h
  constructor
  · cases p <;> cases isBin <;> cases serOk <;> cases writeOk <;>
      simp [insertRecord, h, writeRecord, updateIndex, Payload.isBuffer]
  · intro hmis
    have hins : insertRecord s id p isBin serOk writeOk =
        (s1, .error .validation) := by
      cases p <;> cases isBin <;>
        simp_all [insertRecord, h, writeRecord, Payload.isBuffer]
    rw [hins]
    exact ⟨rfl, hfiles, hstable, by rw [hfiles]; exact hfile⟩

/-- C4 witness: inserting a Buffer with isBinary false on a concrete
store fails with the validation error and leaves the store untouched. -/
theorem insertRecord_validation_witness :
    (insertRecord storeAnn "zz" (.buf [1]) false true true).2 =
      .error .validation ∧
    (insertRecord storeAnn "zz" (.buf [1]) false true true).1 = storeAnn := by
  have H := insertRecord_validation storeAnn [⟨"r1", false⟩] storeAnn "zz"
    (.buf [1]) false true true rfl rfl
  exact ⟨H.1.mpr (by decide), (H.2 (by decide)).1⟩

/-- C10: frame property of deleteRecord. When the index holds an entry for
the id (whose generated ids never collide with the reserved basename
index), a successful delete persists, in memory and on disk, exactly the
previous index with every entry of that id removed, the remaining entries
unchanged and in their original relative order; the record file selected
by the stored flag is removed and no other file changes except the index
file. -/
theorem deleteRecord_frame (s : Store) (idx : List IndexRecord) (s1 : Store)
    (rid : String) (entry : IndexRecord)
    (h : getIndex s = .ok (idx, s1))
    (hfind : idx.find? (fun item => item.id == rid) = some entry)
    (hid : rid ≠ "index") :
    (deleteRecord s rid true true).2 = none ∧
    (deleteRecord s rid true true).1.cache =
      some (idx.filter (fun item => item.id != rid)) ∧
    fsLookup (deleteRecord s rid true true).1.files indexKey =
      some (.indexData (idx.filter (fun item => item.id != rid))) ∧
    fsLookup (deleteRecord s rid true true).1.files
      (recKey rid entry.isBinary) = none ∧
    (∀ k, k ≠ recKey rid entry.isBinary → k ≠ indexKey →
      fsLookup (deleteRecord s rid true true).1.files k =
        fsLookup s.files k) := by
  obtain ⟨hfiles, -, -, -⟩ := getIndex_ok s idx s1 h
  have hkey : recKey rid entry.isBinary ≠ indexKey := by
    cases hb : entry.isBinary <;> simp [recKey, indexKey, hid]
  have hdel : deleteRecord s rid true true =
      ({ s1 with
          files := fsWrite (fsUnlink s1.files (recKey rid entry.isBinary))
            indexKey
            (.indexData (idx.filter (fun item => item.id != rid))),
          cache := some (idx.filter (fun item => item.id != rid)) },
       none) := by
    simp [deleteRecord, h, hfind, updateIndex]
  rw [hdel]
  refine ⟨rfl, rfl, fsLookup_write_same _ _ _, ?_, ?_⟩
  · rw [fsLookup_write_other _ _ _ _ hkey, fsLookup_unlink_same]
  · intro k hk hkidx
    rw [fsLookup_write_other _ _ _ _ hkidx, fsLookup_unlink_other _ _ _ hk,
      hfiles]

/-- C10 witness: deleting the structured record of a concrete two-record
collection removes exactly its entry and its file, and the binary record
and its file survive untouched. -/
theorem deleteRecord_frame_witness :
    (deleteRecord storeAnnBin "r1" true true).2 = none ∧
    (deleteRecord storeAnnBin "r1" true true).1.cache =
      some [⟨"r2", true⟩] ∧
    fsLookup (deleteRecord storeAnnBin "r1" true true).1.files
      (recKey "r1" false) = none ∧
    fsLookup (deleteRecord storeAnnBin "r1" true true).1.files
      (recKey "r2" true) = fsLookup storeAnnBin.files (recKey "r2" true) := by
  have H := deleteRecord_frame storeAnnBin
    [⟨"r1", false⟩, ⟨"r2", true⟩] storeAnnBin "r1" ⟨"r1", false⟩
    rfl rfl (by decide)
  exact ⟨H.1, H.2.1, H.2.2.2.1, H.2.2.2.2 (recKey "r2" true)
    (by decide) (by decide)⟩

/-- Store used by the cache-coherence witness: directory not yet created,
index cached with one entry. -/
def c9Store : Store :=
  { dirExists := false, files := [], cache := some [⟨"a", false⟩] }

/-- C9: cache coherence on index-write failure. For each mutating
operation that persists the index (createCollection, insertRecord,
deleteRecord; updateRecord only reaches its index write on the
representation-change path, which always fails earlier, see the C7
analysis), a serialization failure or a file-write failure while
persisting evicts the in-memory cache entry before the error propagates,
and on success the cached index equals the index just written to disk. -/
theorem updateIndex_failure_evicts_cache (s : Store) (idx : List IndexRecord)
    (s1 : Store) (id0 : String) (p : Payload) (isBin : Bool) (rid : String)
    (entry : IndexRecord)
    (h : getIndex s = .ok (idx, s1))
    (hmatch : p.isBuffer = isBin)
    (hfind : idx.find? (fun item => item.id == rid) = some entry)
    (hdir : s.dirExists = false) :
    ((createCollection s false true).1.cache = none ∧
      (createCollection s false true).2 = some .serialization ∧
      (createCollection s true false).1.cache = none ∧
      (createCollection s true false).2 = some .ioWrite ∧
      (createCollection s true true).2 = none ∧
      (createCollection s true true).1.cache = some [] ∧
      fsLookup (createCollection s true true).1.files indexKey =
        some (.indexData [])) ∧
    ((insertRecord s id0 p isBin false true).1.cache = none ∧
      (insertRecord s id0 p isBin false true).2 = .error .serialization ∧
      (insertRecord s id0 p isBin true false).1.cache = none ∧
      (insertRecord s id0 p isBin true false).2 = .error .ioWrite ∧
      (insertRecord s id0 p isBin true true).1.cache =
        some (idx ++ [⟨id0, isBin⟩]) ∧
      fsLookup (insertRecord s id0 p isBin true true).1.files indexKey =
        some (.indexData (idx ++ [⟨id0, isBin⟩]))) ∧
    ((deleteRecord s rid false true).1.cache = none ∧
      (deleteRecord s rid false true).2 = some .serialization ∧
      (deleteRecord s rid true false).1.cache = none ∧
      (deleteRecord s rid true false).2 = some .ioWrite ∧
      (deleteRecord s rid true true).1.cache =
        some (idx.filter (fun item => item.id != rid)) ∧
      fsLookup (deleteRecord s rid true true).1.files indexKey =
        some (.indexData (idx.filter (fun item => item.id != rid)))) := by
  refine ⟨?_, ?_, ?_⟩
  · simp [createCollection, ensureDirExists, hdir, updateIndex,
      fsLookup_write_same]
  · simp [insertRecord, h, writeRecord_match s1 id0 p isBin hmatch,
      updateIndex, fsLookup_write_same]
  · simp [deleteRecord, h, hfind, updateIndex, fsLookup_write_same]

/-- C9 witness: the failure injections evaluated on a concrete store. -/
theorem updateIndex_failure_evicts_cache_witness :
    (insertRecord c9Store "b" (.doc []) false false true).1.cache = none ∧
    (insertRecord c9Store "b" (.doc []) false true false).1.cache = none ∧
    (createCollection c9Store true false).1.cache = none ∧
    (deleteRecord c9Store "a" true false).1.cache = none ∧
    (insertRecord c9Store "b" (.doc []) false true true).1.cache =
      some [⟨"a", false⟩, ⟨"b", false⟩] ∧
    fsLookup (insertRecord c9Store "b" (.doc []) false true true).1.files
      indexKey = some (.indexData [⟨"a", false⟩, ⟨"b", false⟩]) := by
  have H := updateIndex_failure_evicts_cache c9Store [⟨"a", false⟩] c9Store
    "b" (.doc []) false "a" ⟨"a", false⟩ rfl rfl rfl rfl
  exact ⟨H.2.1.1, H.2.1.2.2.1, H.1.2.2.1, H.2.2.2.2.1,
    H.2.1.2.2.2.2.1, H.2.1.2.2.2.2.2⟩

theorem insertMany_spec (inputs : List (String × Payload × Bool)) :
    ∀ (s : Store) (idx : List IndexRecord) (s1 : Store),
      getIndex s = .ok (idx, s1) →
      (∀ x ∈ inputs, (x.2.1).isBuffer = x.2.2) →
      (insertMany s inputs).2 = .ok (inputs.map (·.1)) ∧
      ∃ t, getIndex (insertMany s inputs).1 =
        .ok (idx ++ inputs.map (fun x => ⟨x.1, x.2.2⟩), t) := by
  induction inputs with
  | nil =>
      intro s idx s1 h _
      exact ⟨rfl, ⟨s1, by simpa using h⟩⟩
  | cons x rest ih =>
      intro s idx s1 h hpay
      obtain ⟨id, p, b⟩ := x
      have hx : p.isBuffer = b := hpay (id, p, b) (by simp)
      have hins := insertRecord_ok s idx s1 id p b h hx
      have hnext : getIndex (insertRecord s id p b true true).1 =
          .ok (idx ++ [⟨id, b⟩], (insertRecord s id p b true true).1) := by
        rw [hins]
        rfl
      obtain ⟨hval, t, hidx⟩ := ih (insertRecord s id p b true true).1
        (idx ++ [⟨id, b⟩]) (insertRecord s id p b true true).1 hnext
        (fun y hy => hpay y (by simp [hy]))
      rcases hm : insertMany (insertRecord s id p b true true).1 rest with
        ⟨s3, r⟩
      rw [hm] at hval hidx
      simp only at hval
      subst hval
      rw [hins] at hm
      refine ⟨?_, ⟨t, ?_⟩⟩
      · simp only [insertMany, hins, hm, List.map_cons]
      · simp only [insertMany, hins, hm]
        simpa using hidx

/-- C8: id uniqueness. Starting from a collection whose index is empty,
any sequence of successful insertRecord calls whose generated ids are
pairwise distinct (the freshness randomUUID is trusted for; the code
itself performs no uniqueness check) returns exactly those ids, appends
one entry per call, so the final index has length N, and every id in the
final index is unique. -/
theorem insert_sequence_unique_ids (s : Store) (s1 : Store)
    (inputs : List (String × Payload × Bool))
    (h : getIndex s = .ok ([], s1))
    (hpay : ∀ x ∈ inputs, (x.2.1).isBuffer = x.2.2)
    (hnodup : (inputs.map (·.1)).Nodup) :
    (insertMany s inputs).2 = .ok (inputs.map (·.1)) ∧
    (inputs.map (·.1)).Nodup ∧
    (∃ t, getIndex (insertMany s inputs).1 =
      .ok (inputs.map (fun x => ⟨x.1, x.2.2⟩), t)) ∧
    (inputs.map fun x => (⟨x.1, x.2.2⟩ : IndexRecord)).length =
      inputs.length ∧
    ((inputs.map fun x => (⟨x.1, x.2.2⟩ : IndexRecord)).map
      IndexRecord.id).Nodup := by
  obtain ⟨hval, t, hidx⟩ := insertMany_spec inputs s [] s1 h hpay
  have hids : (inputs.map fun x => (⟨x.1, x.2.2⟩ : IndexRecord)).map
      IndexRecord.id = inputs.map (·.1) := by
    simp [List.map_map, Function.comp]
  refine ⟨hval, hnodup, ⟨t, by simpa using hidx⟩, by simp, ?_⟩
  rw [hids]
  exact hnodup

/-- C8 witness: two successful inserts on a freshly created collection
return the two distinct ids and leave an index of length two. -/
theorem insert_sequence_unique_ids_witness :
    (insertMany (createCollection emptyStore true true).1
      [("a", .doc [], false), ("b", .buf [7], true)]).2 = .ok ["a", "b"] ∧
    (["a", "b"] : List String).Nodup ∧
    ([("a", Payload.doc [], false), ("b", Payload.buf [7], true)].map
      fun x => (⟨x.1, x.2.2⟩ : IndexRecord)).length =
      [("a", Payload.doc [], false), ("b", Payload.buf [7], true)].length := by
  have H := insert_sequence_unique_ids (createCollection emptyStore true true).1
    (createCollection emptyStore true true).1
    [("a", .doc [], false), ("b", .buf [7], true)] rfl
    (by intro x hx; simp at hx; rcases hx with rfl | rfl <;> rfl)
    (by decide)
  exact ⟨H.1, H.2.1, H.2.2.2.1⟩

/-- C5 amended witness: pagination evaluated on the concrete two-record
collection, with limit 1 skip 1, with a skip past the length, and with
the falsy limit 0 returning everything. -/
theorem getRecords_pagination_witness :
    (getRecords storeAnnBin (some 1) (some 1)).2 =
      .ok [some (.buf [1, 2, 3])] ∧
    (getRecords storeAnnBin (some 5) (some 7)).2 = .ok [] ∧
    (getRecords storeAnnBin (some 0) (some 0)).2 =
      .ok [some (.doc [("name", .str "Ann")]), some (.buf [1, 2, 3])] := by
  have H := getRecords_pagination storeAnnBin
    [⟨"r1", false⟩, ⟨"r2", true⟩] storeAnnBin
    (fun e => if e.id = "r1" then some (.doc [("name", .str "Ann")])
      else some (.buf [1, 2, 3]))
    rfl
    (by intro e he; simp at he; rcases he with rfl | rfl <;> rfl)
  refine ⟨?_, ?_, ?_⟩
  · have := H.1 1 1 (by decide)
    simpa using this
  · exact H.2.1 5 7 (by decide)
  · have := H.2.2.2.1 0
    simpa using this

/-- C6 amended witness: on the concrete store whose single index entry
has no file, getRecords succeeds and returns the one-element list holding
null. -/
theorem getRecords_missing_files_null_placeholders_witness :
    (getRecords storeMissing none none).2 = .ok [none] := by
  have H := getRecords_missing_files_null_placeholders storeMissing
    [⟨"a", false⟩] { storeMissing with cache := some [⟨"a", false⟩] }
    rfl (by intro e he; simp at he; subst he; rfl)
  simpa using H

end LocalStoreModel
